import Mathlib

/-!
Shallow embedding of the job admission and dispatch layer of
`apps/api/src/services/queue-jobs.ts`.

The external collaborators (Redis-backed concurrency ledger, crawl store,
team-record lookup, notification channel, BullMQ, GCS) are modelled as an
explicit environment of read functions, and every write the code performs
against them is reified as an `Effect` in an ordered trace.  The control
flow of `queue-jobs.ts` (admission verdicts, bucketing of bulk submissions,
the deferred-queue pushes, the wait-for-result primitive) is transcribed
from the TypeScript source.  JavaScript truthiness is modelled explicitly
where the source relies on it (`x ?? d`, `x?.f`, `if (x)`).
-/

namespace QueueJobs

/-- `crawlerOptions` as consulted by this file: only the `delay` field is
read (`crawlerOptions?.delay`). -/
structure CrawlerOptions where
  delay : Option Nat
deriving DecidableEq

/-- The stored crawl record returned by `getCrawl` (crawl-redis). Only the
fields consulted by `queue-jobs.ts` are modelled. -/
structure StoredCrawl where
  crawlerOptions : Option CrawlerOptions
  maxConcurrency : Option Nat
deriving DecidableEq

/-- `scrapeOptions` as consulted by this file: only `timeout` is read. -/
structure ScrapeOptions where
  timeout : Option Nat
deriving DecidableEq

/-- The job payload (`WebScraperOptions`), restricted to the fields the
admission/dispatch layer reads or writes.  `crawl_id = none` covers both the
absent and the JS-falsy cases, which this file treats identically. -/
structure WebScraperOptions where
  team_id : String
  crawl_id : Option String
  is_extract : Bool
  from_extract : Bool
  crawlerOptions : Option CrawlerOptions
  scrapeOptions : ScrapeOptions
  concurrencyLimited : Bool
deriving DecidableEq

/-- Rate limiter mode argument of `getACUCTeam`; only these two are used
here. -/
inductive RLMode where
  | extract
  | crawl
deriving DecidableEq

/-- Hold duration passed to `pushConcurrencyLimitedJob`: a finite number of
milliseconds, or JavaScript `Infinity`. -/
inductive Hold where
  | ms (n : Nat)
  | unbounded
deriving DecidableEq

/-- One write (or paired read) against an external collaborator, in program
order. -/
inductive Effect where
  /-- `cleanOldConcurrencyLimitEntries(team_id, now)` -/
  | cleanOld (team : String)
  /-- the `getConcurrencyLimitActiveJobs(team_id, now).length` read used for
  an admission decision -/
  | countActive (team : String)
  /-- `pushConcurrencyLimitActiveJob(team_id, jobId, ttl)` -/
  | pushActive (team : String) (jobId : String) (ttl : Nat)
  /-- `pushCrawlConcurrencyLimitActiveJob(crawl_id, jobId, ttl)` -/
  | pushCrawlActive (crawl : String) (jobId : String) (ttl : Nat)
  /-- `pushConcurrencyLimitedJob(team_id, entry, hold)` -/
  | pushCQ (team : String) (jobId : String) (data : WebScraperOptions)
      (priority : Nat) (hold : Hold)
  /-- `getScrapeQueue().add(jobId, data, {priority, jobId})` -/
  | enqueueBull (jobId : String) (data : WebScraperOptions) (priority : Nat)
  /-- reaching `shouldSendConcurrencyLimitNotification(team)`, i.e. invoking
  the Notification Gate -/
  | notifyGate (team : String)
deriving DecidableEq

/-- The read side of the external collaborators, as consulted by
`queue-jobs.ts`.  `activeJobs`/`crawlActiveJobs` are the lists returned by
the ledger at the decision point; `acucConcurrency` is
`getACUCTeam(...)?.concurrency`; `cqJobsCount` is
`getConcurrencyQueueJobsCount`. -/
structure Env where
  getCrawl : String → Option StoredCrawl
  crawlActiveJobs : String → List String
  activeJobs : String → List String
  acucConcurrency : String → RLMode → Option Nat
  cqJobsCount : String → Nat

/-- JS truthiness of an optional number (`0` and absence are falsy). -/
def truthyNum : Option Nat → Bool
  | some n => n ≠ 0
  | none => false

/-- `isCrawlOrBatchScrape` from `queue-jobs.ts`: crawlerOptions present, or
crawl_id present. -/
def isCrawlOrBatchScrape (w : WebScraperOptions) : Bool :=
  w.crawlerOptions.isSome || w.crawl_id.isSome

/-- The hold duration computed at the `pushConcurrencyLimitedJob` call site:
`crawl_id ? Infinity : (scrapeOptions?.timeout ?? 60000)`. -/
def holdFor (w : WebScraperOptions) : Hold :=
  match w.crawl_id with
  | some _ => .unbounded
  | none => .ms (w.scrapeOptions.timeout.getD 60000)

/-- `_addScrapeJobToConcurrencyQueue`: pushes the entry onto the team's
deferred (concurrency) queue with the hold rule above. -/
def addScrapeJobToConcurrencyQueue (w : WebScraperOptions) (jobId : String)
    (jobPriority : Nat) : List Effect :=
  [Effect.pushCQ w.team_id jobId w jobPriority (holdFor w)]

/-- `_addScrapeJobToBullMQ` (the A/B staging mirror block touches none of
the collaborators modelled here and is elided): conditionally writes the
active-job entries, then enqueues to BullMQ.  Returns the trace and the
queued job handle (its id). -/
def addScrapeJobToBullMQ (env : Env) (w : WebScraperOptions) (jobId : String)
    (jobPriority : Nat) : List Effect × String :=
  let activeTrace : List Effect :=
    if w.team_id = "" then []
    else
      [Effect.pushActive w.team_id jobId 60000] ++
      (match w.crawl_id with
       | some cid =>
         if truthyNum (w.crawlerOptions.bind fun co => co.delay)
            || truthyNum ((env.getCrawl cid).bind fun sc => sc.maxConcurrency)
         then [Effect.pushCrawlActive cid jobId 60000]
         else []
       | none => [])
  (activeTrace ++ [Effect.enqueueBull jobId w jobPriority], jobId)

/-- The internal `concurrencyLimited` variable of `addScrapeJobRaw`:
`"yes"` (tenant limit), `"yes-crawl"` (crawl limit), `"no"`. -/
inductive Verdict where
  | yes
  | yesCrawl
  | no
deriving DecidableEq

/-- The per-crawl concurrency limit computed in `addScrapeJobRaw` /
`addScrapeJobs`: `null` when the crawl record is missing, `null` when
neither `crawlerOptions?.delay` nor `maxConcurrency` is defined, otherwise
`maxConcurrency ?? 1`. -/
def crawlGateLimit (env : Env) (cid : String) : Option Nat :=
  match env.getCrawl cid with
  | none => none
  | some crawl =>
    if (crawl.crawlerOptions.bind fun co => co.delay) = none
        ∧ crawl.maxConcurrency = none
    then none
    else some (crawl.maxConcurrency.getD 1)

/-- The crawl-gate stage of `addScrapeJobRaw` (lines 140-155): `some
.yesCrawl` when the job is deferred by its crawl's limit, `none` when the
gate lets it pass on to the tenant gate.  `Math.max(limit - count, 0)` on
naturals is truncated subtraction. -/
def crawlStageVerdict (env : Env) (w : WebScraperOptions) : Option Verdict :=
  match w.crawl_id with
  | some cid =>
    match crawlGateLimit env cid with
    | some limit =>
      if limit - (env.crawlActiveJobs cid).length = 0 then some .yesCrawl
      else none
    | none => none
  | none => none

/-- The tenant ceiling read in the tenant-gate block:
`getACUCTeam(team, _, _, is_extract ? Extract : Crawl)?.concurrency ?? 2`. -/
def tenantCeiling (env : Env) (w : WebScraperOptions) : Nat :=
  (env.acucConcurrency w.team_id
    (if w.is_extract then RLMode.extract else RLMode.crawl)).getD 2

/-- Result of `addScrapeJobRaw`: the effect trace, the (possibly mutated)
payload, the returned handle (`none` on deferral), and the value the
internal `concurrencyLimited` variable ended with. -/
structure RawResult where
  trace : List Effect
  payload : WebScraperOptions
  handle : Option String
  verdict : Verdict
deriving DecidableEq

/-- The value the `concurrencyLimited` variable of `addScrapeJobRaw` holds
after lines 133-164: `"no"` for direct-to-BullMQ, the crawl-gate verdict
when it fires, otherwise the tenant-gate comparison
`currentActiveConcurrency >= maxConcurrency`. -/
def rawVerdict (env : Env) (w : WebScraperOptions) (directToBullMQ : Bool) :
    Verdict :=
  if directToBullMQ then .no
  else
    match crawlStageVerdict env w with
    | some v => v
    | none =>
      if (env.activeJobs w.team_id).length ≥ tenantCeiling env w then .yes
      else .no

/-- The ledger calls issued while computing the verdict: the tenant-gate
block (clean + count) runs only when the job was not direct-to-BullMQ and
the crawl gate did not already defer it. -/
def rawGateTrace (env : Env) (w : WebScraperOptions) (directToBullMQ : Bool) :
    List Effect :=
  if directToBullMQ then []
  else
    match crawlStageVerdict env w with
    | some _ => []
    | none => [Effect.cleanOld w.team_id, Effect.countActive w.team_id]

/-- `addScrapeJobRaw` (lines 126-197).  Note: at line 172 the TypeScript
compares `concurrencyQueueJobs > maxConcurrency` against the OUTER
`let maxConcurrency = 0` binding (the `const maxConcurrency` of line 159 is
scoped to the tenant-gate block), so the comparison is against `0`; and the
single-job path performs no `isCrawlOrBatchScrape` suppression before the
Notification Gate. -/
def addScrapeJobRaw (env : Env) (w : WebScraperOptions) (jobId : String)
    (jobPriority : Nat) (directToBullMQ : Bool) : RawResult :=
  let verdict := rawVerdict env w directToBullMQ
  let gateTrace := rawGateTrace env w directToBullMQ
  if verdict = Verdict.no then
    let bull := addScrapeJobToBullMQ env w jobId jobPriority
    { trace := gateTrace ++ bull.1, payload := w, handle := some bull.2,
      verdict := .no }
  else
    let notifyTrace : List Effect :=
      if verdict = Verdict.yes then
        -- shadowed outer `maxConcurrency` is still 0 here
        if env.cqJobsCount w.team_id > 0 then [Effect.notifyGate w.team_id]
        else []
      else []
    let w2 := { w with concurrencyLimited := true }
    { trace := gateTrace ++ notifyTrace ++
        addScrapeJobToConcurrencyQueue w2 jobId jobPriority,
      payload := w2, handle := none, verdict := verdict }

/-- `addScrapeJob`: thin wrapper over `addScrapeJobRaw`. -/
def addScrapeJob (env : Env) (w : WebScraperOptions) (jobId : String)
    (jobPriority : Nat) (directToBullMQ : Bool) : RawResult :=
  addScrapeJobRaw env w jobId jobPriority directToBullMQ

/-! ### Bulk submission (`addScrapeJobs`) -/

/-- One element of the `jobs` array passed to `addScrapeJobs`. -/
structure JobIn where
  data : WebScraperOptions
  jobId : String
  priority : Nat
deriving DecidableEq

/-- Append an element to its group in an insertion-ordered association
list, creating the group at the end if absent — the behaviour of the JS
`Map` grouping loops (`jobsByTeam`, `jobsByCrawlID`). -/
def groupInsert (k : String) (j : JobIn) :
    List (String × List JobIn) → List (String × List JobIn)
  | [] => [(k, [j])]
  | (k2, js) :: rest =>
    if k2 = k then (k2, js ++ [j]) :: rest
    else (k2, js) :: groupInsert k j rest

/-- The `jobsByCrawlID` / `jobsWithoutCrawlID` partition loop of
`addScrapeJobs` (accumulator-passing transcription of the `for` loop). -/
def splitGo : List JobIn → List (String × List JobIn) × List JobIn →
    List (String × List JobIn) × List JobIn
  | [], acc => acc
  | j :: rest, (g, n) =>
    match j.data.crawl_id with
    | some cid => splitGo rest (groupInsert cid j g, n)
    | none => splitGo rest (g, n ++ [j])

/-- Partition a team's jobs into crawl buckets (insertion order of first
occurrence) and the no-crawl list (input order). -/
def splitByCrawl (jobs : List JobIn) :
    List (String × List JobIn) × List JobIn :=
  splitGo jobs ([], [])

/-- The per-crawl-bucket loop of `addScrapeJobs` (lines 282-304): for each
bucket, with an unbounded gate all jobs are potentially admissible; with a
bounded gate the first `freeSlots` are potentially admissible and the rest
are forced to the concurrency queue.  Returns
(`jobsPotentiallyInCQ` restricted to crawl buckets, `jobsForcedToCQ`),
each in bucket order. -/
def bucketSplit (env : Env) :
    List (String × List JobIn) → List JobIn × List JobIn
  | [] => ([], [])
  | (cid, crawlJobs) :: rest =>
    let acc := bucketSplit env rest
    match crawlGateLimit env cid with
    | none => (crawlJobs ++ acc.1, acc.2)
    | some limit =>
      let freeSlots := limit - (env.crawlActiveJobs cid).length
      (crawlJobs.take freeSlots ++ acc.1, crawlJobs.drop freeSlots ++ acc.2)

/-- The quantities computed by the per-team body of `addScrapeJobs`,
reified.  `firstData` is `jobs[0].data` of the WHOLE submission: the source
uses it for the rate-limiter mode (`from_extract`), for the
`isCrawlOrBatchScrape` suppression, and as the notification target. -/
structure TeamPlan where
  potentially : List JobIn
  forced : List JobIn
  maxConcurrency : Nat
  currentActive : Nat
  canAdd : Nat
  addToBull : List JobIn
  addToCQ : List JobIn
deriving DecidableEq

/-- The computations of the per-team body of `addScrapeJobs`
(lines 236-321). -/
def teamPlan (env : Env) (teamId : String) (teamJobs : List JobIn)
    (firstData : WebScraperOptions) : TeamPlan :=
  let split := splitByCrawl teamJobs
  let buckets := bucketSplit env split.1
  let potentially := buckets.1 ++ split.2
  let maxConcurrency :=
    (env.acucConcurrency teamId
      (if firstData.from_extract then RLMode.extract else RLMode.crawl)).getD 2
  let currentActive := (env.activeJobs teamId).length
  let canAdd := maxConcurrency - currentActive
  { potentially := potentially
    forced := buckets.2
    maxConcurrency := maxConcurrency
    currentActive := currentActive
    canAdd := canAdd
    addToBull := potentially.take canAdd
    addToCQ := potentially.drop canAdd ++ buckets.2 }

/-- The effect trace of the per-team body of `addScrapeJobs`: ledger
clean+count, the Notification Gate check (lines 324-335), then the
concurrency-queue pushes, then the BullMQ admissions. -/
def processTeam (env : Env) (teamId : String) (teamJobs : List JobIn)
    (firstData : WebScraperOptions) : List Effect :=
  let plan := teamPlan env teamId teamJobs firstData
  [Effect.cleanOld teamId, Effect.countActive teamId]
  ++ (if plan.potentially.length - plan.canAdd > plan.maxConcurrency
        && !(isCrawlOrBatchScrape firstData)
      then [Effect.notifyGate firstData.team_id]
      else [])
  ++ plan.addToCQ.flatMap (fun j =>
      addScrapeJobToConcurrencyQueue j.data j.jobId j.priority)
  ++ plan.addToBull.flatMap (fun j =>
      (addScrapeJobToBullMQ env j.data j.jobId j.priority).1)

/-- The `jobsByTeam` grouping loop of `addScrapeJobs`. -/
def teamGo : List JobIn → List (String × List JobIn) →
    List (String × List JobIn)
  | [], acc => acc
  | j :: rest, acc => teamGo rest (groupInsert j.data.team_id j acc)

/-- `addScrapeJobs`: group by team (insertion order), then run the per-team
body for each bucket. -/
def addScrapeJobs (env : Env) (jobs : List JobIn) : List Effect :=
  match jobs with
  | [] => []
  | first :: _ =>
    (teamGo jobs []).flatMap fun tb => processTeam env tb.1 tb.2 first.data

/-! ### Trace extraction helpers -/

/-- Job ids of the BullMQ enqueues in a trace, in order. -/
def enqueuedIds (tr : List Effect) : List String :=
  tr.filterMap fun e =>
    match e with
    | .enqueueBull j _ _ => some j
    | _ => none

/-- The concurrency-queue pushes in a trace, in order. -/
def cqPushes (tr : List Effect) :
    List (String × String × WebScraperOptions × Nat × Hold) :=
  tr.filterMap fun e =>
    match e with
    | .pushCQ t j d p h => some (t, j, d, p, h)
    | _ => none

/-- The tenant active-entry pushes in a trace, in order. -/
def activePushes (tr : List Effect) : List (String × String × Nat) :=
  tr.filterMap fun e =>
    match e with
    | .pushActive t j ttl => some (t, j, ttl)
    | _ => none

/-- The crawl active-entry pushes in a trace, in order. -/
def crawlActivePushes (tr : List Effect) : List (String × String × Nat) :=
  tr.filterMap fun e =>
    match e with
    | .pushCrawlActive c j ttl => some (c, j, ttl)
    | _ => none

/-! ### The wait-for-result primitive (`waitForJob`) -/

/-- A result document; only its identity matters to this layer. -/
structure Document where
  payload : String
deriving DecidableEq

/-- A JavaScript value thrown across the `waitForJob` boundary.
Modelled from the spec: `ScrapeJobTimeoutError` (defined in `lib/error`,
which is not under `src/`) is a transportable error of kind SCRAPE_TIMEOUT
(spec s7), so the catch block's `instanceof TransportableError` test
accepts it; other transportable errors carry a kind and message. -/
inductive JsErr where
  | scrapeJobTimeout (message : String)
  | transportable (kind : String) (message : String)
  | genericError (message : String)
  | nonError
deriving DecidableEq

/-- Outcome of `job.waitUntilFinished(...)` as observed by the caller:
either it settles `t` milliseconds after the race starts — fulfilled with
a (possibly empty, i.e. falsy) document, or rejected with an error — or it
never settles. -/
inductive Completion where
  | finishesAt (t : Nat) (res : Except JsErr (Option Document))
  | never

/-- The external world as seen by one `waitForJob` call: whether
`queue.getJob` returns the job at the n-th fetch, the completion behaviour,
and the blob-store contents for this job id (`getJobFromGCS`). -/
structure WaitEnv where
  appears : Nat → Bool
  completion : Completion
  gcsDocs : Option (List Document)

/-- Result of the polling loop: the job materialized at poll `iter`, or
the loop threw at poll `iter`. -/
inductive PollResult where
  | found (iter : Nat)
  | timedOut (iter : Nat)
deriving DecidableEq

/-- The body of the `while (job === undefined)` loop of `waitForJob`: each
iteration sleeps 500 ms, refetches, and then throws if the elapsed time
(500·i at iteration i) exceeds `timeout ?? 180000` — the throw fires even
if the refetch just succeeded, because it is checked after the fetch.
`fuel` only bounds the recursion; `pollLoop` supplies enough for the
timeout check to fire first. -/
def pollGo (appears : Nat → Bool) (timeoutMs : Nat) : Nat → Nat → PollResult
  | i, 0 => .timedOut i
  | i, fuel + 1 =>
    if 500 * i > timeoutMs then .timedOut i
    else if appears i then .found i
    else pollGo appears timeoutMs (i + 1) fuel

/-- The polling phase of `waitForJob` for a string job reference: an
initial fetch, then the 500 ms loop. -/
def pollLoop (appears : Nat → Bool) (timeout : Option Nat) : PollResult :=
  if appears 0 then .found 0
  else
    let t := timeout.getD 180000
    pollGo appears t 1 (t / 500 + 2)

/-- The message of the phase-2 deadline error:
`"Scrape timed out" + (byId ? " after waiting in the concurrency limit
queue" : "")`. -/
def timerMessage (byId : Bool) : String :=
  "Scrape timed out" ++
    (if byId then " after waiting in the concurrency limit queue" else "")

/-- The `Promise.race` of `waitForJob`: when a timeout was supplied, a
deadline timer of `max(0, timeout - elapsed)` ms races the completion
event (the timer wins when the completion has not settled strictly before
it); with a `null` timeout there is no timer and the call settles only if
the completion does. -/
def racePhase (completion : Completion) (timeout : Option Nat)
    (elapsed : Nat) (byId : Bool) : Option (Except JsErr (Option Document)) :=
  match timeout with
  | some tmo =>
    match completion with
    | .finishesAt t res =>
      if t < tmo - elapsed then some res
      else some (.error (.scrapeJobTimeout (timerMessage byId)))
    | .never => some (.error (.scrapeJobTimeout (timerMessage byId)))
  | none =>
    match completion with
    | .finishesAt _ res => some res
    | .never => none

/-- The catch block of `waitForJob`: transportable errors (including the
scrape-timeout errors) are rethrown as-is; a plain `Error` is replaced by
`deserializeTransportableError(e.message)` when that succeeds; anything
else is rethrown unchanged.  `deser` stands for
`deserializeTransportableError` (lib/error-serde, not under `src/`),
returning the kind and message of the decoded error. -/
def mapCaught (deser : String → Option (String × String)) : JsErr → JsErr
  | .scrapeJobTimeout m => .scrapeJobTimeout m
  | .transportable k m => .transportable k m
  | .genericError m =>
    match deser m with
    | some km => .transportable km.1 km.2
    | none => .genericError m
  | .nonError => .nonError

/-- Final outcome of a `waitForJob` call: a returned document (with the
flag recording whether the GCS blob was deleted on the way out), a thrown
error, or — with a `null` timeout and no completion — no settlement at
all. -/
inductive WaitOutcome where
  | ret (d : Document) (gcsRemoved : Bool)
  | threw (e : JsErr)
  | hangs
deriving DecidableEq

/-- The post-race block of `waitForJob` (lines 405-418): an empty (falsy)
document is refetched from GCS; a missing or empty blob raises
`Error("Job not found in GCS")`; on a successful blob read the blob is
deleted when the job is marked zero-data-retention. -/
def finishPhase (zeroDataRetention : Bool) (gcsDocs : Option (List Document)) :
    Option Document → WaitOutcome
  | some d => .ret d false
  | none =>
    match gcsDocs with
    | none => .threw (.genericError "Job not found in GCS")
    | some [] => .threw (.genericError "Job not found in GCS")
    | some (d :: _) => .ret d zeroDataRetention

/-- `waitForJob`.  `byId` selects the string-reference flavour (which runs
the polling phase first; the handle flavour starts the race immediately,
with no elapsed time consumed).  `zeroDataRetention` is
`job.data?.internalOptions?.zeroDataRetention`. -/
def waitForJob (deser : String → Option (String × String)) (env : WaitEnv)
    (byId : Bool) (zeroDataRetention : Bool) (timeout : Option Nat) :
    WaitOutcome :=
  let elapsed : Option Nat :=
    if byId then
      match pollLoop env.appears timeout with
      | .found i => some (500 * i)
      | .timedOut _ => none
    else some 0
  match elapsed with
  | none =>
    .threw (.scrapeJobTimeout
      "Scrape timed out while waiting in the concurrency limit queue")
  | some el =>
    match racePhase env.completion timeout el byId with
    | none => .hangs
    | some (.error e) => .threw (mapCaught deser e)
    | some (.ok doc) => finishPhase zeroDataRetention env.gcsDocs doc

/-! ### Concrete instances used to instantiate the theorems -/

/-- A baseline job payload: ad-hoc single URL, team `t`. -/
def wBase : WebScraperOptions :=
  { team_id := "t", crawl_id := none, is_extract := false,
    from_extract := false, crawlerOptions := none,
    scrapeOptions := { timeout := none }, concurrencyLimited := false }

/-- A baseline environment: no crawl records, empty ledger, tenant ceiling
2, empty concurrency queue. -/
def envBase : Env :=
  { getCrawl := fun _ => none
    crawlActiveJobs := fun _ => []
    activeJobs := fun _ => []
    acucConcurrency := fun _ _ => some 2
    cqJobsCount := fun _ => 0 }

/-- Crawl `C` has `max_concurrency = 1` and one active crawl job. -/
def envCrawlFull : Env :=
  { envBase with
    getCrawl := fun c =>
      if c = "C" then some { crawlerOptions := none, maxConcurrency := some 1 }
      else none
    crawlActiveJobs := fun c => if c = "C" then ["a1"] else [] }

/-- Tenant saturated (two active jobs against the default ceiling 2). -/
def envTenantFull : Env :=
  { envBase with activeJobs := fun _ => ["a1", "a2"] }

/-- Tenant saturated, one job already parked in the concurrency queue:
the failing input for the single-path Notification Gate. -/
def envNotif : Env :=
  { envBase with
    activeJobs := fun _ => ["a1", "a2"]
    cqJobsCount := fun _ => 1 }

/-- Tenant ceiling 1 and no crawl records: used to exercise bulk ordering. -/
def envCeilingOne : Env :=
  { envBase with acucConcurrency := fun _ _ => some 1 }

/-- Tenant ceiling 0: every bulk job is deferred. -/
def envCeilingZero : Env :=
  { envBase with acucConcurrency := fun _ _ => some 0 }

/-- Crawl `C` has a `delay` (5) in its stored crawler options and no
`max_concurrency`; the submitting job carries no crawler options of its
own. -/
def envCrawlDelay : Env :=
  { envBase with
    getCrawl := fun c =>
      if c = "C" then
        some { crawlerOptions := some { delay := some 5 },
               maxConcurrency := none }
      else none }

/-- A bulk job element for team `t` with the given id and crawl id. -/
def mkJob (i : String) (cid : Option String) : JobIn :=
  { data := { wBase with crawl_id := cid }, jobId := i, priority := 10 }

/-- A deserializer that decodes only the string `ser`, to kind `K` and
message `M`. -/
def deserProbe : String → Option (String × String) :=
  fun s => if s = "ser" then some ("K", "M") else none

/-- Wait environment in which the job never materializes. -/
def wenvNever : WaitEnv :=
  { appears := fun _ => false, completion := .never, gcsDocs := none }

/-- Wait environment: the job materializes at the first 500 ms poll but its
completion event never fires. -/
def wenvStuck : WaitEnv :=
  { appears := fun n => n == 1, completion := .never, gcsDocs := none }

/-- Wait environment: immediate materialization, completion settles only at
the deadline. -/
def wenvLate : WaitEnv :=
  { appears := fun _ => true
    completion := .finishesAt 1000 (.ok (some { payload := "late" }))
    gcsDocs := none }

/-- Wait environment: immediate materialization, completion fulfils with an
empty (out-of-band) document, and the blob store holds one document. -/
def wenvBlob : WaitEnv :=
  { appears := fun _ => true
    completion := .finishesAt 10 (.ok none)
    gcsDocs := some [{ payload := "D" }] }

/-- Wait environment: immediate materialization, completion rejects with a
plain `Error` whose message is `ser`. -/
def wenvErr : WaitEnv :=
  { appears := fun _ => true
    completion := .finishesAt 10 (.error (.genericError "ser"))
    gcsDocs := none }

/-! ### Supporting lemmas -/

theorem crawlStage_some_iff (env : Env) (w : WebScraperOptions) (cid : String)
    (h : w.crawl_id = some cid) :
    crawlStageVerdict env w = some .yesCrawl ↔
      ∃ limit, crawlGateLimit env cid = some limit ∧
        limit - (env.crawlActiveJobs cid).length = 0 := by
  unfold crawlStageVerdict
  rw [h]
  cases hg : crawlGateLimit env cid with
  | none => simp [hg]
  | some limit =>
    by_cases hz : limit - (env.crawlActiveJobs cid).length = 0 <;>
      simp [hg, hz]

theorem crawlStage_cases (env : Env) (w : WebScraperOptions) :
    crawlStageVerdict env w = none ∨
      crawlStageVerdict env w = some .yesCrawl := by
  unfold crawlStageVerdict
  cases w.crawl_id with
  | none => exact Or.inl rfl
  | some cid =>
    cases hg : crawlGateLimit env cid with
    | none => simp [hg]
    | some limit =>
      by_cases hz : limit - (env.crawlActiveJobs cid).length = 0 <;>
        simp [hg, hz]

theorem addScrapeJobRaw_verdict (env : Env) (w : WebScraperOptions)
    (jobId : String) (p : Nat) (d : Bool) :
    (addScrapeJobRaw env w jobId p d).verdict = rawVerdict env w d := by
  by_cases h : rawVerdict env w d = Verdict.no <;>
    simp [addScrapeJobRaw, h]

theorem rawVerdict_yesCrawl_iff (env : Env) (w : WebScraperOptions)
    (cid : String) (h : w.crawl_id = some cid) :
    rawVerdict env w false = .yesCrawl ↔
      ∃ limit, crawlGateLimit env cid = some limit ∧
        limit - (env.crawlActiveJobs cid).length = 0 := by
  rw [← crawlStage_some_iff env w cid h]
  unfold rawVerdict
  rcases crawlStage_cases env w with hc | hc <;> rw [hc] <;> simp
  intro hif
  split at hif <;> simp_all

theorem cqPushes_append (a b : List Effect) :
    cqPushes (a ++ b) = cqPushes a ++ cqPushes b := by
  simp [cqPushes]

theorem enqueuedIds_append (a b : List Effect) :
    enqueuedIds (a ++ b) = enqueuedIds a ++ enqueuedIds b := by
  simp [enqueuedIds]

theorem activePushes_append (a b : List Effect) :
    activePushes (a ++ b) = activePushes a ++ activePushes b := by
  simp [activePushes]

theorem crawlActivePushes_append (a b : List Effect) :
    crawlActivePushes (a ++ b) = crawlActivePushes a ++ crawlActivePushes b := by
  simp [crawlActivePushes]

theorem cqPushes_bull (env : Env) (w : WebScraperOptions) (jobId : String)
    (p : Nat) :
    cqPushes ((addScrapeJobToBullMQ env w jobId p).1) = [] := by
  by_cases h : w.team_id = "" <;>
    cases hc : w.crawl_id <;>
      simp [addScrapeJobToBullMQ, cqPushes, h, hc]

theorem enqueuedIds_bull (env : Env) (w : WebScraperOptions) (jobId : String)
    (p : Nat) :
    enqueuedIds ((addScrapeJobToBullMQ env w jobId p).1) = [jobId] := by
  by_cases h : w.team_id = "" <;>
    cases hc : w.crawl_id <;>
      simp [addScrapeJobToBullMQ, enqueuedIds, h, hc]

theorem cqPushes_cqOne (w : WebScraperOptions) (jobId : String) (p : Nat) :
    cqPushes (addScrapeJobToConcurrencyQueue w jobId p) =
      [(w.team_id, jobId, w, p, holdFor w)] := by
  simp [cqPushes, addScrapeJobToConcurrencyQueue]

theorem enqueuedIds_cqOne (w : WebScraperOptions) (jobId : String) (p : Nat) :
    enqueuedIds (addScrapeJobToConcurrencyQueue w jobId p) = [] := by
  simp [enqueuedIds, addScrapeJobToConcurrencyQueue]

theorem cqPushes_flatMap_bull (env : Env) (L : List JobIn) :
    cqPushes (L.flatMap fun j =>
      (addScrapeJobToBullMQ env j.data j.jobId j.priority).1) = [] := by
  induction L with
  | nil => rfl
  | cons j rest ih => simp [cqPushes_append, cqPushes_bull, ih]

theorem enqueuedIds_flatMap_bull (env : Env) (L : List JobIn) :
    enqueuedIds (L.flatMap fun j =>
      (addScrapeJobToBullMQ env j.data j.jobId j.priority).1) =
      L.map fun j => j.jobId := by
  induction L with
  | nil => rfl
  | cons j rest ih => simp [enqueuedIds_append, enqueuedIds_bull, ih]

theorem cqPushes_flatMap_cq (L : List JobIn) :
    cqPushes (L.flatMap fun j =>
      addScrapeJobToConcurrencyQueue j.data j.jobId j.priority) =
      L.map fun j =>
        (j.data.team_id, j.jobId, j.data, j.priority, holdFor j.data) := by
  induction L with
  | nil => rfl
  | cons j rest ih => simp [cqPushes_append, cqPushes_cqOne, ih]

theorem enqueuedIds_flatMap_cq (L : List JobIn) :
    enqueuedIds (L.flatMap fun j =>
      addScrapeJobToConcurrencyQueue j.data j.jobId j.priority) = [] := by
  induction L with
  | nil => rfl
  | cons j rest ih => simp [enqueuedIds_append, enqueuedIds_cqOne, ih]

theorem cqPushes_processTeam (env : Env) (teamId : String)
    (teamJobs : List JobIn) (firstData : WebScraperOptions) :
    cqPushes (processTeam env teamId teamJobs firstData) =
      (teamPlan env teamId teamJobs firstData).addToCQ.map fun j =>
        (j.data.team_id, j.jobId, j.data, j.priority, holdFor j.data) := by
  unfold processTeam
  rw [cqPushes_append, cqPushes_append, cqPushes_append,
    cqPushes_flatMap_bull, cqPushes_flatMap_cq]
  split <;> simp [cqPushes]

theorem enqueuedIds_processTeam (env : Env) (teamId : String)
    (teamJobs : List JobIn) (firstData : WebScraperOptions) :
    enqueuedIds (processTeam env teamId teamJobs firstData) =
      (teamPlan env teamId teamJobs firstData).addToBull.map
        fun j => j.jobId := by
  unfold processTeam
  rw [enqueuedIds_append, enqueuedIds_append, enqueuedIds_append,
    enqueuedIds_flatMap_bull, enqueuedIds_flatMap_cq]
  split <;> simp [enqueuedIds]

theorem extract_gate_nil (env : Env) (w : WebScraperOptions) (d : Bool) :
    cqPushes (rawGateTrace env w d) = []
    ∧ activePushes (rawGateTrace env w d) = []
    ∧ crawlActivePushes (rawGateTrace env w d) = []
    ∧ enqueuedIds (rawGateTrace env w d) = [] := by
  unfold rawGateTrace
  split
  · simp [cqPushes, activePushes, crawlActivePushes, enqueuedIds]
  · split <;> simp [cqPushes, activePushes, crawlActivePushes, enqueuedIds]

theorem extract_notify_nil (c1 c2 : Prop) [Decidable c1] [Decidable c2]
    (t : String) :
    cqPushes (if c1 then (if c2 then [Effect.notifyGate t] else []) else [])
        = []
    ∧ activePushes
        (if c1 then (if c2 then [Effect.notifyGate t] else []) else []) = []
    ∧ crawlActivePushes
        (if c1 then (if c2 then [Effect.notifyGate t] else []) else []) = []
    ∧ enqueuedIds
        (if c1 then (if c2 then [Effect.notifyGate t] else []) else [])
        = [] := by
  split
  · split <;> simp [cqPushes, activePushes, crawlActivePushes, enqueuedIds]
  · simp [cqPushes, activePushes, crawlActivePushes, enqueuedIds]

theorem append_shuffle {α : Type} (a b c d : List α) :
    ((a ++ b) ++ (c ++ d)).Perm ((a ++ c) ++ (b ++ d)) := by
  have h1 : (a ++ b) ++ (c ++ d) = a ++ ((b ++ c) ++ d) := by
    simp [List.append_assoc]
  have h2 : (a ++ c) ++ (b ++ d) = a ++ ((c ++ b) ++ d) := by
    simp [List.append_assoc]
  rw [h1, h2]
  exact (List.perm_append_comm.append_right d).append_left a

theorem bucketSplit_perm (env : Env) (groups : List (String × List JobIn)) :
    ((bucketSplit env groups).1 ++ (bucketSplit env groups).2).Perm
      (groups.flatMap fun b => b.2) := by
  induction groups with
  | nil => simp [bucketSplit]
  | cons g rest ih =>
    obtain ⟨cid, js⟩ := g
    cases hg : crawlGateLimit env cid with
    | none =>
      simp only [bucketSplit, hg, List.flatMap_cons]
      have h1 : (js ++ (bucketSplit env rest).1) ++ (bucketSplit env rest).2
          = js ++ ((bucketSplit env rest).1 ++ (bucketSplit env rest).2) := by
        simp [List.append_assoc]
      rw [h1]
      exact ih.append_left js
    | some limit =>
      simp only [bucketSplit, hg, List.flatMap_cons]
      refine ((append_shuffle _ _ _ _).trans ?_)
      rw [List.take_append_drop]
      exact ih.append_left js

theorem groupInsert_perm (k : String) (j : JobIn)
    (g : List (String × List JobIn)) :
    ((groupInsert k j g).flatMap fun b => b.2).Perm
      ((g.flatMap fun b => b.2) ++ [j]) := by
  induction g with
  | nil => simp [groupInsert]
  | cons b rest ih =>
    obtain ⟨k2, js⟩ := b
    by_cases hk : k2 = k
    · simp only [groupInsert, if_pos hk, List.flatMap_cons]
      have h1 : (js ++ [j]) ++ rest.flatMap (fun b => b.2)
          = js ++ ([j] ++ rest.flatMap fun b => b.2) := by
        simp [List.append_assoc]
      have h2 : (js ++ rest.flatMap fun b => b.2) ++ [j]
          = js ++ ((rest.flatMap fun b => b.2) ++ [j]) := by
        simp [List.append_assoc]
      rw [h1, h2]
      exact List.perm_append_comm.append_left js
    · simp only [groupInsert, if_neg hk, List.flatMap_cons]
      have h2 : (js ++ rest.flatMap fun b => b.2) ++ [j]
          = js ++ ((rest.flatMap fun b => b.2) ++ [j]) := by
        simp [List.append_assoc]
      rw [h2]
      exact ih.append_left js

theorem splitGo_perm (jobs : List JobIn) :
    ∀ (g : List (String × List JobIn)) (n : List JobIn),
    (((splitGo jobs (g, n)).1.flatMap fun b => b.2) ++
        (splitGo jobs (g, n)).2).Perm
      (((g.flatMap fun b => b.2) ++ n) ++ jobs) := by
  induction jobs with
  | nil => intro g n; simp [splitGo]
  | cons j rest ih =>
    intro g n
    cases hc : j.data.crawl_id with
    | none =>
      simp only [splitGo, hc]
      refine (ih g (n ++ [j])).trans ?_
      have : ((g.flatMap fun b => b.2) ++ (n ++ [j])) ++ rest
          = (((g.flatMap fun b => b.2) ++ n) ++ (j :: rest)) := by
        simp [List.append_assoc]
      rw [this]
    | some cid =>
      simp only [splitGo, hc]
      refine (ih (groupInsert cid j g) n).trans ?_
      refine (((groupInsert_perm cid j g).append_right n).append_right
        rest).trans ?_
      have h1 : (((g.flatMap fun b => b.2) ++ [j]) ++ n) ++ rest
          = ((g.flatMap fun b => b.2) ++ ([j] ++ n)) ++ rest := by
        simp [List.append_assoc]
      have h2 : (((g.flatMap fun b => b.2) ++ n) ++ (j :: rest))
          = ((g.flatMap fun b => b.2) ++ (n ++ [j])) ++ rest := by
        simp [List.append_assoc]
      rw [h1, h2]
      exact ((List.perm_append_comm.append_left _).append_right rest)

theorem teamPlan_potentially (env : Env) (teamId : String)
    (teamJobs : List JobIn) (firstData : WebScraperOptions) :
    (teamPlan env teamId teamJobs firstData).potentially =
      (bucketSplit env (splitByCrawl teamJobs).1).1 ++
        (splitByCrawl teamJobs).2 := rfl

theorem teamPlan_forced (env : Env) (teamId : String) (teamJobs : List JobIn)
    (firstData : WebScraperOptions) :
    (teamPlan env teamId teamJobs firstData).forced =
      (bucketSplit env (splitByCrawl teamJobs).1).2 := rfl

theorem teamPlan_addToBull (env : Env) (teamId : String)
    (teamJobs : List JobIn) (firstData : WebScraperOptions) :
    (teamPlan env teamId teamJobs firstData).addToBull =
      (teamPlan env teamId teamJobs firstData).potentially.take
        (teamPlan env teamId teamJobs firstData).canAdd := rfl

theorem teamPlan_addToCQ (env : Env) (teamId : String)
    (teamJobs : List JobIn) (firstData : WebScraperOptions) :
    (teamPlan env teamId teamJobs firstData).addToCQ =
      (teamPlan env teamId teamJobs firstData).potentially.drop
        (teamPlan env teamId teamJobs firstData).canAdd ++
      (teamPlan env teamId teamJobs firstData).forced := rfl

theorem teamPlan_partition_perm (env : Env) (teamId : String)
    (teamJobs : List JobIn) (firstData : WebScraperOptions) :
    ((teamPlan env teamId teamJobs firstData).addToBull ++
        (teamPlan env teamId teamJobs firstData).addToCQ).Perm teamJobs := by
  rw [teamPlan_addToBull, teamPlan_addToCQ]
  have h1 : (teamPlan env teamId teamJobs firstData).potentially.take
        (teamPlan env teamId teamJobs firstData).canAdd ++
      ((teamPlan env teamId teamJobs firstData).potentially.drop
        (teamPlan env teamId teamJobs firstData).canAdd ++
       (teamPlan env teamId teamJobs firstData).forced) =
      (teamPlan env teamId teamJobs firstData).potentially ++
        (teamPlan env teamId teamJobs firstData).forced := by
    rw [← List.append_assoc, List.take_append_drop]
  rw [h1, teamPlan_potentially, teamPlan_forced]
  have h2 : ((bucketSplit env (splitByCrawl teamJobs).1).1 ++
        (splitByCrawl teamJobs).2) ++
      (bucketSplit env (splitByCrawl teamJobs).1).2 =
      (bucketSplit env (splitByCrawl teamJobs).1).1 ++
        ((splitByCrawl teamJobs).2 ++
          (bucketSplit env (splitByCrawl teamJobs).1).2) := by
    simp [List.append_assoc]
  rw [h2]
  refine ((List.perm_append_comm.append_left _).trans ?_)
  have h3 : (bucketSplit env (splitByCrawl teamJobs).1).1 ++
      ((bucketSplit env (splitByCrawl teamJobs).1).2 ++
        (splitByCrawl teamJobs).2) =
      ((bucketSplit env (splitByCrawl teamJobs).1).1 ++
        (bucketSplit env (splitByCrawl teamJobs).1).2) ++
      (splitByCrawl teamJobs).2 := by
    simp [List.append_assoc]
  rw [h3]
  refine ((bucketSplit_perm env _).append_right _).trans ?_
  have h4 := splitGo_perm teamJobs [] []
  simpa [splitByCrawl] using h4

theorem deferredTrace (env : Env) (w : WebScraperOptions) (jobId : String)
    (p : Nat) (hd : ¬ rawVerdict env w false = Verdict.no) :
    (addScrapeJobRaw env w jobId p false).trace =
      (rawGateTrace env w false ++
        (if rawVerdict env w false = Verdict.yes then
          (if env.cqJobsCount w.team_id > 0
           then [Effect.notifyGate w.team_id] else [])
         else [])) ++
      addScrapeJobToConcurrencyQueue { w with concurrencyLimited := true }
        jobId p := by
  simp only [addScrapeJobRaw, if_neg hd]

theorem pollGo_never (t : Nat) (appears : Nat → Bool)
    (h : ∀ n, appears n = false) :
    ∀ fuel i, 1 ≤ i → i ≤ t / 500 + 1 → t / 500 + 2 - i ≤ fuel →
    pollGo appears t i fuel = .timedOut (t / 500 + 1) := by
  intro fuel
  induction fuel with
  | zero =>
    intro i h1 h2 h3
    omega
  | succ m ih =>
    intro i h1 h2 h3
    unfold pollGo
    by_cases hgt : 500 * i > t
    · rw [if_pos hgt]
      have hie : i = t / 500 + 1 := by omega
      rw [hie]
    · rw [if_neg hgt, h i]
      simp only [Bool.false_eq_true, if_false]
      exact ih (i + 1) (by omega) (by omega) (by omega)

theorem pollLoop_never (t : Option Nat) :
    pollLoop (fun _ => false) t = .timedOut ((t.getD 180000) / 500 + 1) := by
  unfold pollLoop
  simp only [Bool.false_eq_true, if_false]
  exact pollGo_never (t.getD 180000) (fun _ => false) (fun _ => rfl)
    (t.getD 180000 / 500 + 2) 1 (by omega) (by omega) (by omega)

/-! ### Claim theorems -/

/-- C1: for a submitted job with a crawl id (not direct-to-worker), the
per-crawl ceiling is `max_concurrency` if set on the crawl record, else 1
if a delay is present, else unbounded (a missing crawl record is
unbounded); the job gets verdict `yes-crawl` (DEFER_CRAWL) exactly when the
ceiling is bounded and `max(ceiling - count-crawl-active, 0) = 0`. -/
theorem claim_C1_crawl_gate (env : Env) (w : WebScraperOptions)
    (jobId : String) (p : Nat) (cid : String) (h : w.crawl_id = some cid) :
    (crawlGateLimit env cid =
      match env.getCrawl cid with
      | none => none
      | some crawl =>
        match crawl.maxConcurrency with
        | some m => some m
        | none =>
          if (crawl.crawlerOptions.bind fun co => co.delay).isSome
          then some 1 else none)
    ∧ ((addScrapeJobRaw env w jobId p false).verdict = .yesCrawl ↔
        ∃ limit, crawlGateLimit env cid = some limit ∧
          limit - (env.crawlActiveJobs cid).length = 0) := by
  constructor
  · unfold crawlGateLimit
    cases hg : env.getCrawl cid with
    | none => rfl
    | some crawl =>
      cases hm : crawl.maxConcurrency with
      | some m => simp [hg, hm]
      | none =>
        cases hd : crawl.crawlerOptions.bind fun co => co.delay with
        | none => simp [hg, hm, hd]
        | some dl => simp [hg, hm, hd]
  · rw [addScrapeJobRaw_verdict]
    exact rawVerdict_yesCrawl_iff env w cid h

/-- Witness for C1: crawl `C` has `max_concurrency = 1` with one active
crawl job, so the submission is deferred with verdict `yes-crawl`. -/
theorem claim_C1_crawl_gate_witness :
    ({ wBase with crawl_id := some "C" } : WebScraperOptions).crawl_id
        = some "C"
    ∧ ((addScrapeJobRaw envCrawlFull { wBase with crawl_id := some "C" }
          "j1" 10 false).verdict = .yesCrawl ↔
        ∃ limit, crawlGateLimit envCrawlFull "C" = some limit ∧
          limit - (envCrawlFull.crawlActiveJobs "C").length = 0) :=
  ⟨rfl, (claim_C1_crawl_gate envCrawlFull { wBase with crawl_id := some "C" }
      "j1" 10 "C" rfl).2⟩

/-- C2: for a single job passing the crawl gate (and not direct-to-worker),
the tenant gate cleans expired entries then counts active entries, and the
job is deferred (verdict `yes`, null handle) iff the active count is at or
above the tenant ceiling, which is looked up for mode `extract` when
`is_extract` is set and `crawl` otherwise, defaulting to 2. -/
theorem claim_C2_tenant_gate (env : Env) (w : WebScraperOptions)
    (jobId : String) (p : Nat)
    (hc : crawlStageVerdict env w = none) :
    (∃ rest, (addScrapeJobRaw env w jobId p false).trace =
        Effect.cleanOld w.team_id :: Effect.countActive w.team_id :: rest)
    ∧ ((addScrapeJobRaw env w jobId p false).verdict = .yes ↔
        (env.activeJobs w.team_id).length ≥ tenantCeiling env w)
    ∧ ((addScrapeJobRaw env w jobId p false).handle = none ↔
        (addScrapeJobRaw env w jobId p false).verdict = .yes)
    ∧ tenantCeiling env w =
        (env.acucConcurrency w.team_id
          (if w.is_extract then RLMode.extract else RLMode.crawl)).getD 2 := by
  have hv : rawVerdict env w false =
      (if (env.activeJobs w.team_id).length ≥ tenantCeiling env w
       then Verdict.yes else Verdict.no) := by
    simp [rawVerdict, hc]
  have hg : rawGateTrace env w false =
      [Effect.cleanOld w.team_id, Effect.countActive w.team_id] := by
    simp [rawGateTrace, hc]
  by_cases hge : (env.activeJobs w.team_id).length ≥ tenantCeiling env w
  · have hv2 : rawVerdict env w false = Verdict.yes := by rw [hv]; simp [hge]
    refine ⟨⟨(if env.cqJobsCount w.team_id > 0
          then [Effect.notifyGate w.team_id] else []) ++
        addScrapeJobToConcurrencyQueue
          { w with concurrencyLimited := true } jobId p, ?_⟩, ?_, ?_, rfl⟩ <;>
      simp [addScrapeJobRaw, hv2, hg, hge]
  · have hv2 : rawVerdict env w false = Verdict.no := by rw [hv]; simp [hge]
    refine ⟨⟨(addScrapeJobToBullMQ env w jobId p).1, ?_⟩, ?_, ?_, rfl⟩ <;>
      simp [addScrapeJobRaw, hv2, hg, hge]

/-- Witness for C2: the saturated tenant (2 active against ceiling 2)
defers an ad-hoc job. -/
theorem claim_C2_tenant_gate_witness :
    crawlStageVerdict envTenantFull wBase = none
    ∧ ((addScrapeJobRaw envTenantFull wBase "j1" 10 false).verdict = .yes ↔
        (envTenantFull.activeJobs "t").length ≥
          tenantCeiling envTenantFull wBase) :=
  ⟨rfl, (claim_C2_tenant_gate envTenantFull wBase "j1" 10 rfl).2.1⟩

/-- C3 (amended): within each tenant bucket of a bulk submission, with
tenant headroom `canAdd = max(ceiling - count-active, 0)`, exactly
`min(N, canAdd)` of the N potentially-admissible jobs are enqueued to the
worker queue — they are the first `canAdd` of the potentially-admissible
sequence, which lists crawl-bucket jobs first (buckets in order of first
appearance, each bucket in input order, bounded buckets truncated to their
free slots) followed by the no-crawl jobs in input order — and every
remaining job of the bucket is pushed to the deferred queue, each job going
to exactly one destination. -/
theorem claim_C3_bulk_partition (env : Env) (teamId : String)
    (teamJobs : List JobIn) (firstData : WebScraperOptions) :
    (teamPlan env teamId teamJobs firstData).canAdd =
      (teamPlan env teamId teamJobs firstData).maxConcurrency -
        (teamPlan env teamId teamJobs firstData).currentActive
    ∧ (teamPlan env teamId teamJobs firstData).addToBull.length =
        min (teamPlan env teamId teamJobs firstData).potentially.length
          (teamPlan env teamId teamJobs firstData).canAdd
    ∧ (∃ rest, (teamPlan env teamId teamJobs firstData).potentially =
        (teamPlan env teamId teamJobs firstData).addToBull ++ rest)
    ∧ ((teamPlan env teamId teamJobs firstData).addToBull ++
        (teamPlan env teamId teamJobs firstData).addToCQ).Perm teamJobs
    ∧ enqueuedIds (processTeam env teamId teamJobs firstData) =
        (teamPlan env teamId teamJobs firstData).addToBull.map
          (fun j => j.jobId)
    ∧ (cqPushes (processTeam env teamId teamJobs firstData)).map
        (fun q => q.2.1) =
        (teamPlan env teamId teamJobs firstData).addToCQ.map
          (fun j => j.jobId) := by
  refine ⟨rfl, ?_, ?_, teamPlan_partition_perm env teamId teamJobs firstData,
    enqueuedIds_processTeam env teamId teamJobs firstData, ?_⟩
  · rw [teamPlan_addToBull, List.length_take, Nat.min_comm]
  · exact ⟨(teamPlan env teamId teamJobs firstData).potentially.drop
        (teamPlan env teamId teamJobs firstData).canAdd,
      (List.take_append_drop _ _).symm⟩
  · rw [cqPushes_processTeam]
    simp

/-- C3, counterexample to the claim as stated ("taken in input order"): the
bulk input is `[a, b]` where `a` has no crawl id and `b` belongs to crawl
`X` with no crawl record (so both pass their per-crawl gate), and the
tenant headroom is 1; the code regroups crawl jobs ahead of no-crawl jobs,
so the single admitted job is `b`, the second job of the input, not the
first. -/
theorem claim_C3_counterexample :
    (teamPlan envCeilingOne "t" [mkJob "a" none, mkJob "b" (some "X")]
        wBase).addToBull = [mkJob "b" (some "X")]
    ∧ mkJob "b" (some "X") ≠ mkJob "a" none
    ∧ crawlGateLimit envCeilingOne "X" = none
    ∧ (teamPlan envCeilingOne "t" [mkJob "a" none, mkJob "b" (some "X")]
        wBase).canAdd = 1 := by
  decide

/-- C4, failing input: a single batch-scrape job (crawl id present, no
crawler options) deferred by the saturated tenant, with one job already in
the concurrency queue.  The deferred count (1) does not exceed the ceiling
(2) and the submission is a batch scrape, yet the single-job path invokes
the Notification Gate: line 172 compares the queue count against the
shadowed outer `maxConcurrency` (0) instead of the ceiling, and the single
path never applies the `isCrawlOrBatchScrape` suppression. -/
theorem claim_C4_notification_gate_bug :
    Effect.notifyGate "t" ∈ (addScrapeJobRaw envNotif
        { wBase with crawl_id := some "X" } "j1" 10 false).trace
    ∧ (addScrapeJobRaw envNotif { wBase with crawl_id := some "X" }
        "j1" 10 false).verdict = .yes
    ∧ envNotif.cqJobsCount "t" = 1
    ∧ tenantCeiling envNotif { wBase with crawl_id := some "X" } = 2
    ∧ isCrawlOrBatchScrape { wBase with crawl_id := some "X" } = true := by
  decide

/-- C6 (amended): for every admitted job with a nonempty team id, exactly
one tenant push-active with TTL 60000 is written, before the worker-queue
enqueue; and exactly one crawl push-active (TTL 60000) is written iff the
job has a crawl id and either the job's own crawler options carry a
truthy (nonzero) delay, or the crawl record exists with a truthy
`max_concurrency`. -/
theorem claim_C6_active_entries (env : Env) (w : WebScraperOptions)
    (jobId : String) (p : Nat) (ht : ¬ w.team_id = "") :
    activePushes (addScrapeJobToBullMQ env w jobId p).1 =
      [(w.team_id, jobId, 60000)]
    ∧ (∃ pre, (addScrapeJobToBullMQ env w jobId p).1 =
        pre ++ [Effect.enqueueBull jobId w p]
        ∧ Effect.pushActive w.team_id jobId 60000 ∈ pre)
    ∧ (∀ cid, w.crawl_id = some cid →
        crawlActivePushes (addScrapeJobToBullMQ env w jobId p).1 =
          (if truthyNum (w.crawlerOptions.bind fun co => co.delay)
              || truthyNum
                ((env.getCrawl cid).bind fun sc => sc.maxConcurrency)
           then [(cid, jobId, 60000)] else []))
    ∧ (w.crawl_id = none →
        crawlActivePushes (addScrapeJobToBullMQ env w jobId p).1 = []) := by
  cases hcid : w.crawl_id with
  | none =>
    refine ⟨?_, ⟨[Effect.pushActive w.team_id jobId 60000], ?_, ?_⟩, ?_, ?_⟩ <;>
      simp [addScrapeJobToBullMQ, activePushes, crawlActivePushes, ht, hcid]
  | some cid =>
    cases hA : truthyNum (w.crawlerOptions.bind fun co => co.delay) <;>
      cases hB : truthyNum
        ((env.getCrawl cid).bind fun sc => sc.maxConcurrency)
    case false.false =>
      refine ⟨?_, ⟨[Effect.pushActive w.team_id jobId 60000], ?_, ?_⟩,
          ?_, ?_⟩ <;>
        simp [addScrapeJobToBullMQ, activePushes, crawlActivePushes, ht,
          hcid, hA, hB]
    all_goals
      refine ⟨?_, ⟨[Effect.pushActive w.team_id jobId 60000,
          Effect.pushCrawlActive cid jobId 60000], ?_, ?_⟩, ?_, ?_⟩ <;>
        simp [addScrapeJobToBullMQ, activePushes, crawlActivePushes, ht,
          hcid, hA, hB]

/-- Witness for C6: a job of crawl `C` whose record has
`max_concurrency = 1`; the trace carries one tenant push-active and one
crawl push-active. -/
theorem claim_C6_active_entries_witness :
    ¬ ({ wBase with crawl_id := some "C" } : WebScraperOptions).team_id = ""
    ∧ activePushes (addScrapeJobToBullMQ envCrawlFull
        { wBase with crawl_id := some "C" } "j1" 10).1 = [("t", "j1", 60000)] :=
  ⟨by decide,
    (claim_C6_active_entries envCrawlFull { wBase with crawl_id := some "C" }
      "j1" 10 (by decide)).1⟩

/-- C6, counterexample to the claim as stated: the crawl record of `C` has
a `delay` configured (and the claim therefore requires a crawl
push-active), but the job's own crawler options are absent, and the code —
which tests `webScraperOptions.crawlerOptions?.delay`, not the record's
delay — writes no crawl push-active. -/
theorem claim_C6_counterexample :
    (envCrawlDelay.getCrawl "C").bind
        (fun sc => sc.crawlerOptions.bind fun co => co.delay) = some 5
    ∧ ({ wBase with crawl_id := some "C" } : WebScraperOptions).crawlerOptions
        = none
    ∧ crawlActivePushes (addScrapeJobToBullMQ envCrawlDelay
        { wBase with crawl_id := some "C" } "j1" 10).1 = [] := by
  decide

/-- C5 (amended): a job deferred by the single-job entry point has its
payload marked `concurrencyLimited := true`, is pushed exactly once onto
the tenant's deferred queue with hold `∞` when a crawl id is present and
`scrapeOptions.timeout ?? 60000` otherwise, and the entry point returns
null; jobs deferred by the bulk entry point are pushed with the same hold
rule but with their payloads unmarked. -/
theorem claim_C5_deferred_push (env : Env) (w : WebScraperOptions)
    (jobId : String) (p : Nat) (teamId : String) (teamJobs : List JobIn)
    (firstData : WebScraperOptions)
    (hd : ¬ (addScrapeJobRaw env w jobId p false).verdict = .no) :
    (addScrapeJobRaw env w jobId p false).payload =
      { w with concurrencyLimited := true }
    ∧ (addScrapeJobRaw env w jobId p false).handle = none
    ∧ cqPushes (addScrapeJobRaw env w jobId p false).trace =
        [(w.team_id, jobId, { w with concurrencyLimited := true }, p,
          holdFor w)]
    ∧ holdFor w = (match w.crawl_id with
        | some _ => Hold.unbounded
        | none => Hold.ms (w.scrapeOptions.timeout.getD 60000))
    ∧ cqPushes (processTeam env teamId teamJobs firstData) =
        (teamPlan env teamId teamJobs firstData).addToCQ.map fun j =>
          (j.data.team_id, j.jobId, j.data, j.priority, holdFor j.data) := by
  rw [addScrapeJobRaw_verdict] at hd
  refine ⟨?_, ?_, ?_, rfl, cqPushes_processTeam env teamId teamJobs firstData⟩
  · simp only [addScrapeJobRaw, if_neg hd]
  · simp only [addScrapeJobRaw, if_neg hd]
  · rw [deferredTrace env w jobId p hd, cqPushes_append, cqPushes_append,
      (extract_gate_nil env w false).1,
      (extract_notify_nil _ _ w.team_id).1, cqPushes_cqOne]
    simp [holdFor]

/-- Witness for C5: the saturated tenant defers an ad-hoc job; its hold is
the default 60000 ms and the handle is null. -/
theorem claim_C5_deferred_push_witness :
    ¬ (addScrapeJobRaw envTenantFull wBase "j1" 10 false).verdict = .no
    ∧ (addScrapeJobRaw envTenantFull wBase "j1" 10 false).handle = none := by
  refine ⟨by decide, ?_⟩
  exact (claim_C5_deferred_push envTenantFull wBase "j1" 10 "t" [] wBase
    (by decide)).2.1

/-- C5, counterexample to the claim as stated: a bulk submission against a
tenant with ceiling 0 defers its only job, and the pushed payload still has
`concurrencyLimited = false` — the bulk path never marks deferred
payloads. -/
theorem claim_C5_counterexample :
    Effect.pushCQ "t" "b1" (mkJob "b1" none).data 10 (Hold.ms 60000) ∈
      addScrapeJobs envCeilingZero [mkJob "b1" none]
    ∧ (mkJob "b1" none).data.concurrencyLimited = false := by
  decide

/-- C10 (amended): on the single-job deferred path the only payload
modification is setting `concurrencyLimited := true`, and the trace
contains no push-active, no crawl push-active and no worker-queue enqueue;
on the bulk path deferred payloads are pushed unmodified, and the
worker-queue enqueues are exactly the admitted (`addToBull`) jobs. -/
theorem claim_C10_deferred_frame (env : Env) (w : WebScraperOptions)
    (jobId : String) (p : Nat) (teamId : String) (teamJobs : List JobIn)
    (firstData : WebScraperOptions)
    (hd : ¬ (addScrapeJobRaw env w jobId p false).verdict = .no) :
    (addScrapeJobRaw env w jobId p false).payload =
      { w with concurrencyLimited := true }
    ∧ activePushes (addScrapeJobRaw env w jobId p false).trace = []
    ∧ crawlActivePushes (addScrapeJobRaw env w jobId p false).trace = []
    ∧ enqueuedIds (addScrapeJobRaw env w jobId p false).trace = []
    ∧ (cqPushes (processTeam env teamId teamJobs firstData)).map
        (fun q => q.2.2.1) =
        (teamPlan env teamId teamJobs firstData).addToCQ.map (fun j => j.data)
    ∧ enqueuedIds (processTeam env teamId teamJobs firstData) =
        (teamPlan env teamId teamJobs firstData).addToBull.map
          fun j => j.jobId := by
  rw [addScrapeJobRaw_verdict] at hd
  refine ⟨?_, ?_, ?_, ?_, ?_, enqueuedIds_processTeam env teamId teamJobs
    firstData⟩
  · simp only [addScrapeJobRaw, if_neg hd]
  · rw [deferredTrace env w jobId p hd, activePushes_append,
      activePushes_append, (extract_gate_nil env w false).2.1,
      (extract_notify_nil _ _ w.team_id).2.1]
    simp [activePushes, addScrapeJobToConcurrencyQueue]
  · rw [deferredTrace env w jobId p hd, crawlActivePushes_append,
      crawlActivePushes_append, (extract_gate_nil env w false).2.2.1,
      (extract_notify_nil _ _ w.team_id).2.2.1]
    simp [crawlActivePushes, addScrapeJobToConcurrencyQueue]
  · rw [deferredTrace env w jobId p hd, enqueuedIds_append,
      enqueuedIds_append, (extract_gate_nil env w false).2.2.2,
      (extract_notify_nil _ _ w.team_id).2.2.2, enqueuedIds_cqOne]
    rfl
  · rw [cqPushes_processTeam]
    simp

/-- Witness for C10: the saturated tenant's deferred ad-hoc job leaves no
push-active in the trace. -/
theorem claim_C10_deferred_frame_witness :
    ¬ (addScrapeJobRaw envTenantFull wBase "j1" 10 false).verdict = .no
    ∧ activePushes (addScrapeJobRaw envTenantFull wBase "j1" 10 false).trace
        = [] := by
  refine ⟨by decide, ?_⟩
  exact (claim_C10_deferred_frame envTenantFull wBase "j1" 10 "t" [] wBase
    (by decide)).2.1

/-- C10, counterexample to the claim as stated: a bulk submission against a
tenant with ceiling 0 sends its job (team `tA`) to the concurrency queue
without setting its `concurrencyLimited` flag, so the flag-setting asserted
for "any job sent to the concurrency queue" does not happen there. -/
theorem claim_C10_counterexample :
    Effect.pushCQ "tA" "b2"
        { wBase with team_id := "tA" } 10 (Hold.ms 60000) ∈
      addScrapeJobs envCeilingZero
        [{ data := { wBase with team_id := "tA" }, jobId := "b2",
           priority := 10 }]
    ∧ ({ wBase with team_id := "tA" } : WebScraperOptions).concurrencyLimited
        = false := by
  decide

/-- C7: for a wait call on a job id, (a) if the job never materializes the
call fails with the timed-out-in-queue error, the failing poll being the
first one past `timeout ?? 180000` ms at 500 ms per poll; (b) once
materialized, when the completion event does not settle strictly before the
remaining budget `timeout - elapsed` the call fails with the scrape-timeout
error — both when the completion never fires and when it settles at or
after the deadline. -/
theorem claim_C7_wait_timeouts (deser : String → Option (String × String))
    (envN envS envL : WaitEnv) (zdr : Bool) (t : Option Nat)
    (T T2 i i2 tc : Nat) (resc : Except JsErr (Option Document))
    (hN : envN.appears = fun _ => false)
    (hS1 : pollLoop envS.appears (some T) = .found i)
    (hS2 : envS.completion = .never)
    (hL1 : pollLoop envL.appears (some T2) = .found i2)
    (hL2 : envL.completion = .finishesAt tc resc)
    (hL3 : T2 - 500 * i2 ≤ tc) :
    waitForJob deser envN true zdr t =
      .threw (.scrapeJobTimeout
        "Scrape timed out while waiting in the concurrency limit queue")
    ∧ pollLoop envN.appears t = .timedOut ((t.getD 180000) / 500 + 1)
    ∧ waitForJob deser envS true zdr (some T) =
        .threw (.scrapeJobTimeout (timerMessage true))
    ∧ waitForJob deser envL true zdr (some T2) =
        .threw (.scrapeJobTimeout (timerMessage true)) := by
  refine ⟨?_, ?_, ?_, ?_⟩
  · rw [waitForJob, hN, pollLoop_never]
    rfl
  · rw [hN]
    exact pollLoop_never t
  · rw [waitForJob, hS1]
    simp [racePhase, hS2, mapCaught]
  · rw [waitForJob, hL1]
    simp [racePhase, hL2, mapCaught, if_neg (Nat.not_lt.mpr hL3)]

/-- Witness for C7: with a 1000 ms budget the never-materializing job fails
at the third poll; a job that appears at the first poll but never completes,
or completes only at the deadline, fails with the scrape-timeout error. -/
theorem claim_C7_wait_timeouts_witness :
    waitForJob deserProbe wenvNever true false (some 1000) =
      .threw (.scrapeJobTimeout
        "Scrape timed out while waiting in the concurrency limit queue")
    ∧ pollLoop wenvNever.appears (some 1000) =
        .timedOut (((some 1000 : Option Nat).getD 180000) / 500 + 1)
    ∧ waitForJob deserProbe wenvStuck true false (some 1000) =
        .threw (.scrapeJobTimeout (timerMessage true))
    ∧ waitForJob deserProbe wenvLate true false (some 1000) =
        .threw (.scrapeJobTimeout (timerMessage true)) :=
  claim_C7_wait_timeouts deserProbe wenvNever wenvStuck wenvLate false
    (some 1000) 1000 1000 1 0 1000 (.ok (some { payload := "late" }))
    rfl rfl rfl rfl rfl (by decide)

/-- C8: when the completion event (settling within budget) fulfils with an
empty document, the result is fetched from the blob store: a missing blob
or an empty document list raises the result-not-found error
(`Job not found in GCS`), and on a successful read the first document is
returned with the blob deleted exactly when the job is marked
zero-data-retention. -/
theorem claim_C8_gcs_fallback (deser : String → Option (String × String))
    (env : WaitEnv) (zdr : Bool) (T i tc : Nat) (d0 : Document)
    (rest0 : List Document)
    (hp : pollLoop env.appears (some T) = .found i)
    (hc : env.completion = .finishesAt tc (.ok none))
    (ht : tc < T - 500 * i) :
    waitForJob deser env true zdr (some T) = finishPhase zdr env.gcsDocs none
    ∧ finishPhase zdr none none =
        .threw (.genericError "Job not found in GCS")
    ∧ finishPhase zdr (some []) none =
        .threw (.genericError "Job not found in GCS")
    ∧ finishPhase zdr (some (d0 :: rest0)) none = .ret d0 zdr := by
  refine ⟨?_, rfl, rfl, rfl⟩
  rw [waitForJob, hp]
  simp [racePhase, hc, if_pos ht]

/-- Witness for C8: the blob store holds `[D]` and the job is marked
zero-data-retention, so the wait returns `D` with the blob deleted. -/
theorem claim_C8_gcs_fallback_witness :
    waitForJob deserProbe wenvBlob true true (some 1000) =
      finishPhase true wenvBlob.gcsDocs none
    ∧ finishPhase true none none =
        .threw (.genericError "Job not found in GCS")
    ∧ finishPhase true (some []) none =
        .threw (.genericError "Job not found in GCS")
    ∧ finishPhase true (some ({ payload := "E" } :: [])) none =
        .ret { payload := "E" } true :=
  claim_C8_gcs_fallback deserProbe wenvBlob true 1000 0 10 { payload := "E" }
    [] rfl rfl (by decide)

/-- C9: when the completion event rejects (within budget) with error `e`,
the call rethrows the catch-block image of `e`: an already-typed
transportable error (including the scrape-timeout errors) is rethrown
preserving kind and message; a plain `Error` whose message deserializes is
replaced by the decoded typed error; any other failure is rethrown as the
original value. -/
theorem claim_C9_error_transport (deser : String → Option (String × String))
    (env : WaitEnv) (zdr : Bool) (T i tc : Nat) (e : JsErr)
    (k m m2 k2 m3 m4 : String)
    (hp : pollLoop env.appears (some T) = .found i)
    (hc : env.completion = .finishesAt tc (.error e))
    (ht : tc < T - 500 * i)
    (hser : deser m2 = some (k2, m3))
    (hnone : deser m4 = none) :
    waitForJob deser env true zdr (some T) = .threw (mapCaught deser e)
    ∧ mapCaught deser (.transportable k m) = .transportable k m
    ∧ mapCaught deser (.genericError m2) = .transportable k2 m3
    ∧ mapCaught deser (.genericError m4) = .genericError m4
    ∧ mapCaught deser (.scrapeJobTimeout m) = .scrapeJobTimeout m
    ∧ mapCaught deser .nonError = .nonError := by
  refine ⟨?_, rfl, ?_, ?_, rfl, rfl⟩
  · rw [waitForJob, hp]
    simp [racePhase, hc, if_pos ht]
  · simp [mapCaught, hser]
  · simp [mapCaught, hnone]

/-- Witness for C9: the completion rejects with `Error("ser")`, which the
probe deserializer decodes to the typed error `(K, M)`; the raw message
`raw` does not decode and is rethrown unchanged. -/
theorem claim_C9_error_transport_witness :
    waitForJob deserProbe wenvErr true false (some 1000) =
      .threw (mapCaught deserProbe (.genericError "ser"))
    ∧ mapCaught deserProbe (.transportable "A" "B") = .transportable "A" "B"
    ∧ mapCaught deserProbe (.genericError "ser") = .transportable "K" "M"
    ∧ mapCaught deserProbe (.genericError "raw") = .genericError "raw"
    ∧ mapCaught deserProbe (.scrapeJobTimeout "B") = .scrapeJobTimeout "B"
    ∧ mapCaught deserProbe .nonError = .nonError :=
  claim_C9_error_transport deserProbe wenvErr false 1000 0 10
    (.genericError "ser") "A" "B" "ser" "K" "M" "raw" rfl rfl (by decide)
    rfl rfl

end QueueJobs
